import Mathlib

/-!
Verification of the plan-as-code execution engine in
src/agentic_ai/muti_agent_example/customer_service_agent/M5_UGL_1_R.py.

The engine extracts a Python block delimited by <execute_python> tags from
untrusted generator output (function _extract_execute_block), executes it in a
namespace holding the TinyDB handles and two helpers (function
execute_generated_code), captures stdout, traps exceptions, harvests the
answer_text / answer_rows / answer_json locals by truthiness-ordered
coalescing, and returns a result dict.

The embedding below models the engine's control flow directly from the source.
The executed block itself is arbitrary Python run by exec; it is embedded as a
small statement language Stmt covering the operations the sandbox exposes
(printing, setting the answer locals, TinyDB table mutations, raising), and
the opaque Python interpreter applied to the extracted code string is a
parameter of type String -> String -> Stmt (code and user_request determine
the behaviour). Machine strings are Lean Strings; Python str.strip() is
modelled by stripFn; decimal amounts are modelled as integer cents.
-/

instance {ε α : Type} [DecidableEq ε] [DecidableEq α] : DecidableEq (Except ε α) := fun x y =>
  match x, y with
  | .ok a, .ok b =>
    if h : a = b then isTrue (by rw [h]) else isFalse (by intro hc; injection hc; contradiction)
  | .error a, .error b =>
    if h : a = b then isTrue (by rw [h]) else isFalse (by intro hc; injection hc; contradiction)
  | .ok _, .error _ => isFalse (by intro hc; injection hc)
  | .error _, .ok _ => isFalse (by intro hc; injection hc)

/-- The characters str.strip removes: ASCII whitespace. -/
def pySpace (c : Char) : Bool :=
  c = ' ' || c = '\t' || c = '\n' || c = '\r' || c = '\x0b' || c = '\x0c'

/-- Python str.strip(): drop leading and trailing whitespace. -/
def stripFn (s : String) : String :=
  String.mk (((s.toList.dropWhile pySpace).reverse.dropWhile pySpace).reverse)

/-- Python values as far as the engine observes them: the answer locals are
read back with dict.get (None when absent) and combined with the or operator,
so only truthiness and equality matter. -/
inductive PyVal
  | pyNone
  | pyBool (b : Bool)
  | pyInt (n : Int)
  | pyStr (s : String)
deriving DecidableEq, Repr

/-- Python truthiness for the values above: None and the empty string are
falsy, as are False and 0. -/
def truthy : PyVal → Bool
  | .pyNone => false
  | .pyBool b => b
  | .pyInt n => decide (n ≠ 0)
  | .pyStr s => decide (s ≠ "")

/-- Python's short-circuit or on values: a or b is a when a is truthy, else b. -/
def pyOr (a b : PyVal) : PyVal := if truthy a then a else b

/-- SAFE_LOCALS.get for an answer binding: the stored value, or None when the
executed block never assigned the name. -/
def getL (o : Option PyVal) : PyVal := o.getD .pyNone

/-- Inventory row. Field set follows the data model the engine operates on
(the seeding module is outside the sources; only the row identity and the
stock quantity are inspected here). Price is in cents. -/
structure Item where
  item_id : String
  name : String
  description : String
  quantity_in_stock : Nat
  price : Int
deriving DecidableEq, Repr

/-- Ledger (transactions) row. Amounts and balances in cents; the timestamp
is kept as an opaque string. -/
structure Entry where
  transaction_id : String
  customer_name : String
  summary : String
  amount : Int
  balance_after : Int
  timestamp : String
deriving DecidableEq, Repr

/-- The two TinyDB tables the db handle owns. -/
structure Store where
  inventory : List Item
  ledger : List Entry
deriving DecidableEq, Repr

/-- The answer bindings the executed block may assign into SAFE_LOCALS.
SAFE_LOCALS initially holds only the db and table handles, so all three
start absent. -/
structure Locals where
  answer_text : Option PyVal
  answer_rows : Option PyVal
  answer_json : Option PyVal
deriving DecidableEq, Repr

/-- The names of the three answer bindings. -/
inductive LName
  | answer_text
  | answer_rows
  | answer_json
deriving DecidableEq, Repr

/-- State visible to the executed block: the two tables (reached through the
live handles in SAFE_LOCALS), the answer locals, and the text written so far
to sys.stdout (the StringIO buffer during execution). -/
structure SbState where
  inventory : List Item
  ledger : List Entry
  locals : Locals
  out : String
deriving DecidableEq, Repr

/-- The executed block, embedded as a statement language over the sandbox
operations: write to stdout, assign an answer local, update one item's
quantity_in_stock through the inventory handle, insert a ledger row through
the transactions handle, raise, sequence, and branch on the current state
(covering data-dependent plans). -/
inductive Stmt
  | skip
  | seq (a b : Stmt)
  | emit (s : String)
  | setLocal (n : LName) (v : PyVal)
  | updateQty (item_id : String) (q : Nat)
  | insertEntry (e : Entry)
  | raiseExn (msg : String)
  | branch (c : SbState → Bool) (a b : Stmt)

/-- Assign one answer local. -/
def setLocalFn (n : LName) (v : PyVal) (l : Locals) : Locals :=
  match n with
  | .answer_text => { l with answer_text := some v }
  | .answer_rows => { l with answer_rows := some v }
  | .answer_json => { l with answer_json := some v }

/-- Run a statement: returns the fault (the exception's description, as
traceback.format_exc captures it) when the block raises, together with the
state actually reached — a raise stops the rest of the block but keeps every
mutation already performed, exactly as exec does. -/
def runStmt : Stmt → SbState → Option String × SbState
  | .skip, st => (none, st)
  | .seq a b, st =>
    match runStmt a st with
    | (some e, st') => (some e, st')
    | (none, st') => runStmt b st'
  | .emit s, st => (none, { st with out := st.out ++ s })
  | .setLocal n v, st => (none, { st with locals := setLocalFn n v st.locals })
  | .updateQty item_id q, st =>
    (none, { st with inventory := st.inventory.map fun it =>
      if it.item_id = item_id then { it with quantity_in_stock := q } else it })
  | .insertEntry e, st => (none, { st with ledger := st.ledger ++ [e] })
  | .raiseExn m, st => (some m, st)
  | .branch c a b, st => if c st then runStmt a st else runStmt b st

/-- Does the statement contain a table mutation (inventory update or
transactions insert)? The spec calls the mutation-free blocks read-only. -/
def mutatesStore : Stmt → Bool
  | .skip => false
  | .seq a b => mutatesStore a || mutatesStore b
  | .emit _ => false
  | .setLocal _ _ => false
  | .updateQty _ _ => true
  | .insertEntry _ => true
  | .raiseExn _ => false
  | .branch _ a b => mutatesStore a || mutatesStore b

/-- Does the statement contain an assignment to the given answer local? -/
def assignsLocal (n : LName) : Stmt → Bool
  | .skip => false
  | .seq a b => assignsLocal n a || assignsLocal n b
  | .emit _ => false
  | .setLocal m _ => decide (m = n)
  | .updateQty _ _ => false
  | .insertEntry _ => false
  | .raiseExn _ => false
  | .branch _ a b => assignsLocal n a || assignsLocal n b

/-- The open tag, lowercased, as a character list. -/
def openTagL : List Char := "<execute_python>".toList

/-- The close tag, lowercased, as a character list. -/
def closeTagL : List Char := "</execute_python>".toList

/-- Lowercased character list of a string: how the IGNORECASE regex compares. -/
def lcs (s : String) : List Char := s.toList.map Char.toLower

/-- Index of the first occurrence of needle in hay, or none. This is how
re.search scans left to right for a match start. -/
def findIdx : List Char → List Char → Option Nat
  | [], needle => if needle.isEmpty then some 0 else none
  | c :: rest, needle =>
    if needle.isPrefixOf (c :: rest) then some 0
    else (findIdx rest needle).map (· + 1)

/-- Model of _extract_execute_block (source lines 329-337). Raises
RuntimeError — modelled as Except.error — exactly when the argument is falsy,
i.e. the empty string. Otherwise searches case-insensitively for
<execute_python>(.*?)</execute_python> with DOTALL: the match starts at the
first open tag and the lazy group ends at the first close tag after it; the
trimmed group is returned, and when there is no match the whole text is
returned trimmed. -/
def _extract_execute_block (text : String) : Except String String :=
  if text = "" then .error "Empty content passed to code executor."
  else
    match findIdx (lcs text) openTagL with
    | some i =>
      match findIdx ((lcs text).drop (i + openTagL.length)) closeTagL with
      | some j =>
        .ok (stripFn (String.mk ((text.toList.drop (i + openTagL.length)).take j)))
      | none => .ok (stripFn text)
    | none => .ok (stripFn text)

/-- What sys.stdout can point at around the executor: the host process stream
saved in _old_stdout, or the StringIO buffer installed during execution. -/
inductive StdoutSink
  | hostStream
  | stringBuffer
deriving DecidableEq, Repr

/-- Host interpreter state the executor touches: the current sys.stdout. -/
structure Host where
  sysStdout : StdoutSink
deriving DecidableEq, Repr

/-- The result dict returned by execute_generated_code (source lines
389-396): extracted code, stripped captured stdout, the captured traceback or
None, the coalesced answer, and the live post-execution contents of the two
tables. -/
structure ExecResult where
  code : String
  stdout : String
  error : Option String
  answer : PyVal
  transactions_tbl : List Entry
  inventory_tbl : List Item
deriving DecidableEq, Repr

/-- Initial sandbox state for a run: the store as it stands, no answer locals
assigned, empty stdout buffer. -/
def initState (store : Store) : SbState :=
  { inventory := store.inventory, ledger := store.ledger
  , locals := { answer_text := none, answer_rows := none, answer_json := none }
  , out := "" }

/-- The truthiness-ordered harvest of the answer (source lines 382-386):
SAFE_LOCALS.get("answer_text") or SAFE_LOCALS.get("answer_rows") or
SAFE_LOCALS.get("answer_json"). -/
def harvestAnswer (l : Locals) : PyVal :=
  pyOr (getL l.answer_text) (pyOr (getL l.answer_rows) (getL l.answer_json))

/-- Model of execute_generated_code (source lines 341-396). The opaque
Python interpreter applied to the extracted code and the user_request string
is the parameter py. Extraction happens first and its RuntimeError
propagates (Except.error). Then sys.stdout is swapped for the buffer, the
block runs with any exception trapped, the finally clause restores
sys.stdout, the captured output is stripped, the answers are harvested and
the result dict is assembled. -/
def execute_generated_code (code_or_content : String) (py : String → String → Stmt)
    (store : Store) (user_request : Option String) (h : Host) :
    Except String (ExecResult × Host) :=
  match _extract_execute_block code_or_content with
  | .error e => .error e
  | .ok code =>
    let oldStdout := h.sysStdout
    let hRedirected : Host := { h with sysStdout := StdoutSink.stringBuffer }
    match runStmt (py code (user_request.getD "")) (initState store) with
    | (fault, st1) =>
      let hRestored : Host := { hRedirected with sysStdout := oldStdout }
      .ok ({ code := code
           , stdout := stripFn st1.out
           , error := fault
           , answer := harvestAnswer st1.locals
           , transactions_tbl := st1.ledger
           , inventory_tbl := st1.inventory }, hRestored)

/-- Keys of the SAFE_GLOBALS dict literal (source lines 357-362). -/
def SAFE_GLOBALS_keys : List String :=
  ["Query", "get_current_balance", "next_transaction_id", "user_request"]

/-- Keys of the SAFE_LOCALS dict literal (source lines 363-367). -/
def SAFE_LOCALS_keys : List String :=
  ["db", "inventory_tbl", "transactions_tbl"]

/-- A sample of names in the builtins module of every CPython: enough to show
filesystem, process and dynamic-import access. -/
def builtins_sample : List String :=
  ["open", "__import__", "eval", "compile", "input", "vars", "getattr"]

/-- Names visible to the code run by exec(code, SAFE_GLOBALS, SAFE_LOCALS).
Modelled from CPython's documented exec semantics: when the globals mapping
has no "__builtins__" key, the interpreter inserts a reference to the full
builtins module under that key before execution, so every builtin is
reachable by name from the executed block in addition to the globals and
locals the caller passed. -/
def exec_visible_names : List String :=
  SAFE_GLOBALS_keys ++ SAFE_LOCALS_keys ++
    (if "__builtins__" ∈ SAFE_GLOBALS_keys then []
     else "__builtins__" :: builtins_sample)

/-- Projection of one answer local by name. -/
def getLocal (n : LName) (l : Locals) : Option PyVal :=
  match n with
  | .answer_text => l.answer_text
  | .answer_rows => l.answer_rows
  | .answer_json => l.answer_json

/-- Concrete host for witnesses: sys.stdout initially the process stream. -/
def hostSample : Host := { sysStdout := .hostStream }

/-- Concrete empty store for witnesses. -/
def storeEmpty : Store := { inventory := [], ledger := [] }

def itemA (q : Nat) : Item :=
  { item_id := "SG001", name := "Aviator", description := "classic aviator"
  , quantity_in_stock := q, price := 8000 }

def entryA : Entry :=
  { transaction_id := "TXN-1001", customer_name := "Alice", summary := "sale"
  , amount := -16000, balance_after := 34000, timestamp := "t0" }

def storeOne : Store := { inventory := [itemA 1], ledger := [] }

def storeTwo : Store := { inventory := [itemA 2], ledger := [] }

/-- Lowercasing distributes over string append. -/
theorem lcs_append (a b : String) : lcs (a ++ b) = lcs a ++ lcs b := by
  simp [lcs, String.toList]

/-- Lowercasing preserves length. -/
theorem lcs_length (s : String) : (lcs s).length = s.toList.length := by
  simp [lcs]

/-- When the needle is a prefix of the haystack, the first occurrence is at 0. -/
theorem findIdx_prefix (l n : List Char) (hne : n ≠ []) (h : n.isPrefixOf l) :
    findIdx l n = some 0 := by
  cases l with
  | nil =>
    cases n with
    | nil => exact absurd rfl hne
    | cons x xs => simp [List.isPrefixOf] at h
  | cons c r => simp [findIdx, h]

/-- Scanning past a block that cannot start the needle (the needle starts with
a left angle bracket and the block contains none) shifts the found index. -/
theorem findIdx_append_lt (a l n : List Char) (hh : n.head? = some '<')
    (ha : '<' ∉ a) : findIdx (a ++ l) n = (findIdx l n).map (· + a.length) := by
  induction a with
  | nil =>
    simp only [List.nil_append, List.length_nil]
    cases h : findIdx l n <;> simp [h]
  | cons c a ih =>
    have hc : c ≠ '<' := fun h => ha (h ▸ List.mem_cons_self c a)
    have ha' : '<' ∉ a := fun h => ha (List.mem_cons_of_mem _ h)
    have hnp : ¬ n.isPrefixOf (c :: (a ++ l)) := by
      cases n with
      | nil => simp at hh
      | cons x xs =>
        have hx : x = '<' := by simpa using hh
        subst hx
        simp [List.isPrefixOf]
        intro h'
        exact absurd h'.symm hc
    rw [List.cons_append]
    rw [findIdx]
    rw [if_neg hnp]
    rw [ih ha']
    cases findIdx l n with
    | none => simp
    | some k => simp; omega

/-- Extraction of a text built around one delimited region: whatever the case
of the tags, and whatever trailing content follows the close tag (including
further delimited regions), extraction returns the stripped interior of the
first region, provided the text before the region and the region body contain
no left angle bracket (so the first tag occurrence is the one displayed). -/
theorem extract_delimited (pre tagO code tagC suf : String)
    (hO : lcs tagO = openTagL) (hC : lcs tagC = closeTagL)
    (hpre : '<' ∉ lcs pre) (hcode : '<' ∉ lcs code) :
    _extract_execute_block (pre ++ tagO ++ code ++ tagC ++ suf) = .ok (stripFn code) := by
  have htext : lcs (pre ++ tagO ++ code ++ tagC ++ suf) =
      lcs pre ++ (openTagL ++ (lcs code ++ (closeTagL ++ lcs suf))) := by
    simp [lcs_append, hO, hC]
  have hone : findIdx (lcs (pre ++ tagO ++ code ++ tagC ++ suf)) openTagL =
      some (lcs pre).length := by
    rw [htext, findIdx_append_lt _ _ _ (by decide) hpre,
      findIdx_prefix _ _ (by decide)
        (List.isPrefixOf_iff_prefix.mpr (List.prefix_append _ _))]
    simp
  have hdrop : (lcs (pre ++ tagO ++ code ++ tagC ++ suf)).drop
      ((lcs pre).length + openTagL.length) = lcs code ++ (closeTagL ++ lcs suf) := by
    rw [htext, ← List.append_assoc (lcs pre) openTagL,
      show (lcs pre).length + openTagL.length = (lcs pre ++ openTagL).length by simp]
    exact List.drop_left _ _
  have htwo : findIdx ((lcs (pre ++ tagO ++ code ++ tagC ++ suf)).drop
      ((lcs pre).length + openTagL.length)) closeTagL = some (lcs code).length := by
    rw [hdrop, findIdx_append_lt _ _ _ (by decide) hcode,
      findIdx_prefix _ _ (by decide)
        (List.isPrefixOf_iff_prefix.mpr (List.prefix_append _ _))]
    simp
  have hlenO : tagO.toList.length = openTagL.length := by
    have h := congrArg List.length hO
    simpa [lcs] using h
  have htl : (pre ++ tagO ++ code ++ tagC ++ suf).toList =
      pre.toList ++ (tagO.toList ++ (code.toList ++ (tagC.toList ++ suf.toList))) := by
    simp [String.toList]
  have hint : (((pre ++ tagO ++ code ++ tagC ++ suf).toList.drop
      ((lcs pre).length + openTagL.length)).take (lcs code).length) = code.toList := by
    rw [htl, lcs_length pre, ← hlenO, ← List.append_assoc pre.toList tagO.toList,
      show pre.toList.length + tagO.toList.length = (pre.toList ++ tagO.toList).length by simp,
      List.drop_left, lcs_length code]
    exact List.take_left _ _
  have hne : (pre ++ tagO ++ code ++ tagC ++ suf) ≠ "" := by
    intro h
    have h2 : lcs (pre ++ tagO ++ code ++ tagC ++ suf) = [] := by rw [h]; rfl
    rw [htext] at h2
    have h3 := congrArg List.length h2
    have h16 : openTagL.length = 16 := by decide
    simp [List.length_append, h16] at h3
  unfold _extract_execute_block
  rw [if_neg hne, hone]
  simp only [htwo, hint]
  rfl

/-- findIdx misses exactly when the needle occurs nowhere in the haystack. -/
theorem findIdx_eq_none_iff (l n : List Char) : findIdx l n = none ↔ ¬ n <:+: l := by
  induction l with
  | nil =>
    cases n with
    | nil => simp [findIdx]
    | cons x xs => simp [findIdx]
  | cons c r ih =>
    rw [findIdx]
    by_cases hp : n.isPrefixOf (c :: r)
    · simp [hp, List.isPrefixOf_iff_prefix.mp hp, List.infix_cons_iff]
    · simp [hp, List.infix_cons_iff, ih]
      intro h
      exact fun hpre => hp (List.isPrefixOf_iff_prefix.mpr hpre)

/-- With no case-insensitive occurrence of the open tag, extraction returns
the whole non-empty text stripped. -/
theorem extract_noTag (text : String) (hne : text ≠ "")
    (hno : ¬ openTagL <:+: lcs text) :
    _extract_execute_block text = .ok (stripFn text) := by
  unfold _extract_execute_block
  rw [if_neg hne, (findIdx_eq_none_iff (lcs text) openTagL).mpr hno]

/-- Extraction raises its RuntimeError exactly on the empty string. -/
theorem extract_error_iff (text : String) :
    (∃ e, _extract_execute_block text = .error e) ↔ text = "" := by
  constructor
  · rintro ⟨e, he⟩
    by_contra hne
    unfold _extract_execute_block at he
    rw [if_neg hne] at he
    split at he <;> (try split at he) <;> simp at he
  · rintro rfl
    exact ⟨_, rfl⟩

/-- Characterization of execute_generated_code on the path where extraction
succeeds: the block runs from the initial sandbox state, and the result dict
is assembled from the state the block reached, with sys.stdout restored. -/
theorem execute_eq (content : String) (py : String → String → Stmt) (store : Store)
    (req : Option String) (h : Host) (code : String) (f : Option String) (st1 : SbState)
    (hx : _extract_execute_block content = .ok code)
    (hr : runStmt (py code (req.getD "")) (initState store) = (f, st1)) :
    execute_generated_code content py store req h =
      .ok ({ code := code, stdout := stripFn st1.out, error := f
           , answer := harvestAnswer st1.locals
           , transactions_tbl := st1.ledger, inventory_tbl := st1.inventory },
           { sysStdout := h.sysStdout }) := by
  unfold execute_generated_code
  rw [hx]
  simp only [hr]

/-- Assigning one answer local leaves the others unchanged. -/
theorem getLocal_setLocalFn_ne (m n : LName) (hmn : m ≠ n) (v : PyVal) (l : Locals) :
    getLocal n (setLocalFn m v l) = getLocal n l := by
  cases m <;> cases n <;> first
    | exact absurd rfl hmn
    | rfl

/-- A block with no table mutation leaves both tables exactly as it found
them, whether or not it raises. -/
theorem runStmt_not_mutates : ∀ (s : Stmt), mutatesStore s = false →
    ∀ st, (runStmt s st).2.inventory = st.inventory ∧ (runStmt s st).2.ledger = st.ledger := by
  intro s
  induction s with
  | skip => intro _ st; exact ⟨rfl, rfl⟩
  | seq a b iha ihb =>
    intro hm st
    simp only [mutatesStore, Bool.or_eq_false_iff] at hm
    obtain ⟨hma, hmb⟩ := hm
    have Ha := iha hma st
    rcases h1 : runStmt a st with ⟨f, st'⟩
    rw [h1] at Ha
    cases f with
    | some e =>
      simp only [runStmt, h1]
      exact Ha
    | none =>
      have Hb := ihb hmb st'
      simp only [runStmt, h1]
      exact ⟨Hb.1.trans Ha.1, Hb.2.trans Ha.2⟩
  | emit s => intro _ st; exact ⟨rfl, rfl⟩
  | setLocal n v => intro _ st; exact ⟨rfl, rfl⟩
  | updateQty i q => intro hm st; simp [mutatesStore] at hm
  | insertEntry e => intro hm st; simp [mutatesStore] at hm
  | raiseExn m => intro _ st; exact ⟨rfl, rfl⟩
  | branch c a b iha ihb =>
    intro hm st
    simp only [mutatesStore, Bool.or_eq_false_iff] at hm
    obtain ⟨hma, hmb⟩ := hm
    by_cases hc : c st = true
    · simp only [runStmt, hc, if_true]
      exact iha hma st
    · simp only [runStmt, hc, if_false, Bool.false_eq_true]
      exact ihb hmb st

/-- A block that never assigns a given answer local leaves that local
exactly as it found it, whether or not it raises. -/
theorem runStmt_not_assigns (n : LName) : ∀ (s : Stmt), assignsLocal n s = false →
    ∀ st, getLocal n (runStmt s st).2.locals = getLocal n st.locals := by
  intro s
  induction s with
  | skip => intro _ st; rfl
  | seq a b iha ihb =>
    intro hm st
    simp only [assignsLocal, Bool.or_eq_false_iff] at hm
    obtain ⟨hma, hmb⟩ := hm
    have Ha := iha hma st
    rcases h1 : runStmt a st with ⟨f, st'⟩
    rw [h1] at Ha
    cases f with
    | some e =>
      simp only [runStmt, h1]
      exact Ha
    | none =>
      have Hb := ihb hmb st'
      simp only [runStmt, h1]
      exact Hb.trans Ha
  | emit s => intro _ st; rfl
  | setLocal m v =>
    intro hm st
    simp only [assignsLocal, decide_eq_false_iff_not] at hm
    simp only [runStmt]
    exact getLocal_setLocalFn_ne m n hm v st.locals
  | updateQty i q => intro _ st; rfl
  | insertEntry e => intro _ st; rfl
  | raiseExn m => intro _ st; rfl
  | branch c a b iha ihb =>
    intro hm st
    simp only [assignsLocal, Bool.or_eq_false_iff] at hm
    obtain ⟨hma, hmb⟩ := hm
    by_cases hc : c st = true
    · simp only [runStmt, hc, if_true]
      exact iha hma st
    · simp only [runStmt]
      rw [if_neg hc]
      exact ihb hmb st

/-- C1 counterexample. A plan body that executes without fault and never
assigns answer_text produces a result literally equal to that of a body
assigning the successful empty string to answer_text: the result dict carries
no status at all (no ContractViolation), and such a run is indistinguishable
from a successful empty result. -/
theorem C1_no_status_cex :
    execute_generated_code "x" (fun _ _ => .skip) storeEmpty none hostSample =
      execute_generated_code "x" (fun _ _ => .setLocal .answer_text (.pyStr ""))
        storeEmpty none hostSample ∧
    execute_generated_code "x" (fun _ _ => .skip) storeEmpty none hostSample =
      .ok ({ code := "x", stdout := "", error := none, answer := .pyNone
           , transactions_tbl := [], inventory_tbl := [] }, hostSample) := by
  decide

/-- C1 amended. For every plan body that executes without fault and never
assigns answer_text, execute_generated_code returns an ordinary result with
error None whose answer falls back to answer_rows, then answer_json (None
when neither is set), regardless of any store mutations the body performed;
no distinct ContractViolation status exists in the result. -/
theorem C1_missing_answer_text (content : String) (py : String → String → Stmt)
    (store : Store) (req : Option String) (h : Host) (code : String) (st1 : SbState)
    (hx : _extract_execute_block content = .ok code)
    (hna : assignsLocal .answer_text (py code (req.getD "")) = false)
    (hr : runStmt (py code (req.getD "")) (initState store) = (none, st1)) :
    execute_generated_code content py store req h =
      .ok ({ code := code, stdout := stripFn st1.out, error := none
           , answer := pyOr (getL st1.locals.answer_rows) (getL st1.locals.answer_json)
           , transactions_tbl := st1.ledger, inventory_tbl := st1.inventory },
           { sysStdout := h.sysStdout }) := by
  have hat : st1.locals.answer_text = none := by
    have H := runStmt_not_assigns .answer_text _ hna (initState store)
    rw [hr] at H
    simpa [getLocal, initState] using H
  rw [execute_eq content py store req h code none st1 hx hr]
  simp [harvestAnswer, hat, getL, pyOr, truthy]

/-- C1 witness: a body that mutates the ledger and sets only answer_rows. -/
theorem C1_missing_answer_text_w :
    execute_generated_code "x"
        (fun _ _ => .seq (.insertEntry entryA) (.setLocal .answer_rows (.pyStr "r")))
        storeEmpty none hostSample =
      .ok ({ code := "x", stdout := stripFn "", error := none
           , answer := pyOr (getL (some (.pyStr "r"))) (getL none)
           , transactions_tbl := [entryA], inventory_tbl := [] },
           { sysStdout := hostSample.sysStdout }) :=
  C1_missing_answer_text "x" _ storeEmpty none hostSample "x"
    { inventory := [], ledger := [entryA]
    , locals := { answer_text := none, answer_rows := some (.pyStr "r"), answer_json := none }
    , out := "" }
    (by decide) (by decide) (by decide)

/-- C2 counterexample. On the empty input text, execute_generated_code does
not return a result record: the extraction RuntimeError propagates to the
caller uncaught. -/
theorem C2_empty_raises_cex :
    execute_generated_code "" (fun _ _ => .skip) storeEmpty none hostSample =
      .error "Empty content passed to code executor." := by
  decide

/-- C2 amended. For every non-empty input text, execute_generated_code
returns normally with a well-formed result; and whenever the executed plan
body raises, the fault description is captured in the error field rather than
propagating. Only the empty-input RuntimeError escapes to the caller. -/
theorem C2_faults_trapped :
    (∀ (content : String) (py : String → String → Stmt) (store : Store)
        (req : Option String) (h : Host), content ≠ "" →
      ∃ r h2, execute_generated_code content py store req h = .ok (r, h2)) ∧
    (∀ (content : String) (py : String → String → Stmt) (store : Store)
        (req : Option String) (h : Host) (code msg : String) (st1 : SbState),
      _extract_execute_block content = .ok code →
      runStmt (py code (req.getD "")) (initState store) = (some msg, st1) →
      ∃ r h2, execute_generated_code content py store req h = .ok (r, h2) ∧
        r.error = some msg) := by
  constructor
  · intro content py store req h hne
    rcases hx : _extract_execute_block content with e | code
    · exact absurd ((extract_error_iff content).mp ⟨e, hx⟩) hne
    · rcases hr : runStmt (py code (req.getD "")) (initState store) with ⟨f, st1⟩
      exact ⟨_, _, execute_eq content py store req h code f st1 hx hr⟩
  · intro content py store req h code msg st1 hx hr
    exact ⟨_, _, execute_eq content py store req h code (some msg) st1 hx hr, rfl⟩

/-- C3 counterexample. An all-whitespace, non-empty raw text is not rejected:
extraction succeeds with the empty block, and execution proceeds, returning a
normal result — contradicting the claimed iff on empty-or-all-whitespace. -/
theorem C3_whitespace_accepted_cex :
    _extract_execute_block " \n\t " = .ok "" ∧
    execute_generated_code " \n\t " (fun _ _ => .skip) storeEmpty none hostSample =
      .ok ({ code := "", stdout := "", error := none, answer := .pyNone
           , transactions_tbl := [], inventory_tbl := [] }, hostSample) := by
  decide

/-- C3 amended. Extraction fails with the EmptyInput RuntimeError if and only
if the raw text is exactly the empty string, and in that case the failure is
surfaced immediately by execute_generated_code: the plan body never runs. -/
theorem C3_empty_input_iff :
    (∀ text : String, (∃ e, _extract_execute_block text = .error e) ↔ text = "") ∧
    (∀ (py : String → String → Stmt) (store : Store) (req : Option String) (h : Host),
      execute_generated_code "" py store req h =
        .error "Empty content passed to code executor.") :=
  ⟨extract_error_iff, fun _ _ _ _ => rfl⟩

/-- C4. Extraction of a text containing a delimited region returns exactly
the stripped interior of the first such region, tags matched
case-insensitively, with later regions and trailing content ignored; a
non-empty text with no delimiters is returned whole, stripped. -/
theorem C4_extraction :
    (∀ pre tagO code tagC suf : String, lcs tagO = openTagL → lcs tagC = closeTagL →
      '<' ∉ lcs pre → '<' ∉ lcs code →
      _extract_execute_block (pre ++ tagO ++ code ++ tagC ++ suf) = .ok (stripFn code)) ∧
    (∀ text : String, text ≠ "" → ¬ openTagL <:+: lcs text →
      _extract_execute_block text = .ok (stripFn text)) :=
  ⟨extract_delimited, extract_noTag⟩

/-- C4 witness: the concrete examples of the claim, a two-region text where
only the first region is used, and a mixed-case pair of tags. -/
theorem C4_extraction_w :
    _extract_execute_block "prefix <execute_python>CODE</execute_python> suffix" = .ok "CODE" ∧
    _extract_execute_block "CODE" = .ok "CODE" ∧
    _extract_execute_block "a <execute_python> A </execute_python> b <execute_python>B</execute_python>" = .ok "A" ∧
    _extract_execute_block "<ExEcUtE_pYtHoN>X</EXECUTE_PYTHON>y" = .ok "X" := by
  refine ⟨?_, ?_, ?_, ?_⟩
  · exact (C4_extraction.1 "prefix " "<execute_python>" "CODE" "</execute_python>" " suffix"
      (by decide) (by decide) (by decide) (by decide)).trans (by decide)
  · exact (C4_extraction.2 "CODE" (by decide)
      ((findIdx_eq_none_iff (lcs "CODE") openTagL).mp (by decide))).trans (by decide)
  · exact (C4_extraction.1 "a " "<execute_python>" " A " "</execute_python>"
      " b <execute_python>B</execute_python>"
      (by decide) (by decide) (by decide) (by decide)).trans (by decide)
  · exact (C4_extraction.1 "" "<ExEcUtE_pYtHoN>" "X" "</EXECUTE_PYTHON>" "y"
      (by decide) (by decide) (by decide) (by decide)).trans (by decide)

/-- C5 counterexample. Two runs starting from different inventories can
return identical result records, so the record cannot contain a snapshot of
the collections taken before execution: the claimed inventory_before and
ledger_before fields do not exist. -/
theorem C5_no_before_snapshot_cex :
    storeOne ≠ storeTwo ∧
    execute_generated_code "x" (fun _ _ => .updateQty "SG001" 5) storeOne none hostSample =
      execute_generated_code "x" (fun _ _ => .updateQty "SG001" 5) storeTwo none hostSample := by
  decide

/-- C5 amended. The result record contains the post-execution contents of
both collections (fields inventory_tbl and transactions_tbl) alongside the
extracted code, the captured (stripped) log, the fault if any, and the
coalesced answer; no before-execution snapshot is part of the record. -/
theorem C5_result_fields (content : String) (py : String → String → Stmt)
    (store : Store) (req : Option String) (h : Host) (code : String)
    (f : Option String) (st1 : SbState)
    (hx : _extract_execute_block content = .ok code)
    (hr : runStmt (py code (req.getD "")) (initState store) = (f, st1)) :
    ∃ r h2, execute_generated_code content py store req h = .ok (r, h2) ∧
      r.inventory_tbl = st1.inventory ∧ r.transactions_tbl = st1.ledger ∧
      r.code = code ∧ r.stdout = stripFn st1.out ∧ r.error = f ∧
      r.answer = harvestAnswer st1.locals :=
  ⟨_, _, execute_eq content py store req h code f st1 hx hr, rfl, rfl, rfl, rfl, rfl, rfl⟩

/-- C5 witness: a mutating body, with the after-state visible in the record. -/
theorem C5_result_fields_w :
    ∃ r h2, execute_generated_code "x"
        (fun _ _ => .seq (.updateQty "SG001" 5) (.insertEntry entryA))
        storeOne none hostSample = .ok (r, h2) ∧
      r.inventory_tbl = [itemA 5] ∧ r.transactions_tbl = [entryA] ∧
      r.code = "x" ∧ r.stdout = stripFn "" ∧ r.error = none ∧
      r.answer = harvestAnswer { answer_text := none, answer_rows := none, answer_json := none } :=
  C5_result_fields "x" _ storeOne none hostSample "x" none
    { inventory := [itemA 5], ledger := [entryA]
    , locals := { answer_text := none, answer_rows := none, answer_json := none }
    , out := "" }
    (by decide) (by decide)

/-- C6. Because SAFE_GLOBALS has no key named double-underscore-builtins,
CPython's exec inserts the full builtins module into the globals it runs the
plan against, so names such as open and the import hook are visible to the
executed block in addition to the seven enumerated bindings — contradicting
the claim that nothing visible grants filesystem or process access. -/
theorem C6_builtins_visible :
    "open" ∈ exec_visible_names ∧ "__import__" ∈ exec_visible_names ∧
    "open" ∉ SAFE_GLOBALS_keys ++ SAFE_LOCALS_keys ∧
    "__import__" ∉ SAFE_GLOBALS_keys ++ SAFE_LOCALS_keys := by
  decide

/-- C7. For every plan body performing no store mutation (no inventory
update and no ledger insert), the collections in the result equal the
collections of the store before execution: inventory and ledger are
unchanged. -/
theorem C7_read_only_frame (content : String) (py : String → String → Stmt)
    (store : Store) (req : Option String) (h : Host) (code : String)
    (hx : _extract_execute_block content = .ok code)
    (hm : mutatesStore (py code (req.getD "")) = false) :
    ∃ r h2, execute_generated_code content py store req h = .ok (r, h2) ∧
      r.inventory_tbl = store.inventory ∧ r.transactions_tbl = store.ledger := by
  rcases hr : runStmt (py code (req.getD "")) (initState store) with ⟨f, st1⟩
  have H := runStmt_not_mutates _ hm (initState store)
  rw [hr] at H
  exact ⟨_, _, execute_eq content py store req h code f st1 hx hr, H.1, H.2⟩

/-- C7 witness: a read-only body that prints and sets answer_text. -/
theorem C7_read_only_frame_w :
    ∃ r h2, execute_generated_code "x"
        (fun _ _ => .seq (.emit "checking stock") (.setLocal .answer_text (.pyStr "yes")))
        storeOne none hostSample = .ok (r, h2) ∧
      r.inventory_tbl = storeOne.inventory ∧ r.transactions_tbl = storeOne.ledger :=
  C7_read_only_frame "x" _ storeOne none hostSample "x" (by decide) (by decide)

/-- C8 counterexample. A body that writes a string ending in a newline gets
it back stripped in the stdout field, so the capture is not verbatim. -/
theorem C8_stdout_stripped_cex :
    execute_generated_code "x" (fun _ _ => .emit "hi\n") storeEmpty none hostSample =
      .ok ({ code := "x", stdout := "hi", error := none, answer := .pyNone
           , transactions_tbl := [], inventory_tbl := [] }, hostSample) ∧
    ("hi" : String) ≠ "hi\n" := by
  decide

/-- C8 amended. All text the plan body writes to stdout is captured in order
and returned in the result's stdout field stripped of leading and trailing
whitespace, including when the body faults partway through; the answer field
is harvested from the answer locals, never from the captured log. -/
theorem C8_stdout_captured (content : String) (py : String → String → Stmt)
    (store : Store) (req : Option String) (h : Host) (code : String)
    (f : Option String) (st1 : SbState)
    (hx : _extract_execute_block content = .ok code)
    (hr : runStmt (py code (req.getD "")) (initState store) = (f, st1)) :
    ∃ r h2, execute_generated_code content py store req h = .ok (r, h2) ∧
      r.stdout = stripFn st1.out ∧ r.error = f ∧
      r.answer = harvestAnswer st1.locals :=
  ⟨_, _, execute_eq content py store req h code f st1 hx hr, rfl, rfl, rfl⟩

/-- C8 witness: a body that writes and then raises; the text written before
the fault is still captured (stripped) and the fault is recorded. -/
theorem C8_stdout_captured_w :
    ∃ r h2, execute_generated_code "x"
        (fun _ _ => .seq (.emit " partial log ") (.seq (.raiseExn "boom") (.emit "never")))
        storeEmpty none hostSample = .ok (r, h2) ∧
      r.stdout = stripFn " partial log " ∧ r.error = some "boom" ∧
      r.answer = harvestAnswer { answer_text := none, answer_rows := none, answer_json := none } :=
  C8_stdout_captured "x" _ storeEmpty none hostSample "x" (some "boom")
    { inventory := [], ledger := []
    , locals := { answer_text := none, answer_rows := none, answer_json := none }
    , out := " partial log " }
    (by decide) (by decide)

/-- C9. The result's answer is harvested by truthiness-ordered coalescing:
answer_text when truthy, else answer_rows when truthy, else answer_json; in
particular a plan that sets answer_text to the empty string has it silently
replaced by the answer_rows/answer_json fallback. -/
theorem C9_answer_coalescing (content : String) (py : String → String → Stmt)
    (store : Store) (req : Option String) (h : Host) (code : String)
    (f : Option String) (st1 : SbState)
    (hx : _extract_execute_block content = .ok code)
    (hr : runStmt (py code (req.getD "")) (initState store) = (f, st1)) :
    ∃ r h2, execute_generated_code content py store req h = .ok (r, h2) ∧
      r.answer = pyOr (getL st1.locals.answer_text)
        (pyOr (getL st1.locals.answer_rows) (getL st1.locals.answer_json)) ∧
      (truthy (getL st1.locals.answer_text) = true →
        r.answer = getL st1.locals.answer_text) ∧
      (st1.locals.answer_text = some (.pyStr "") →
        r.answer = pyOr (getL st1.locals.answer_rows) (getL st1.locals.answer_json)) := by
  refine ⟨_, _, execute_eq content py store req h code f st1 hx hr, rfl, ?_, ?_⟩
  · intro ht
    simp [harvestAnswer, pyOr, ht]
  · intro ht
    simp [harvestAnswer, ht, getL, pyOr, truthy]

/-- C9 witness: answer_text set to the empty string is silently replaced by
the truthy answer_rows value. -/
theorem C9_answer_coalescing_w :
    ∃ r h2, execute_generated_code "x"
        (fun _ _ => .seq (.setLocal .answer_text (.pyStr ""))
          (.setLocal .answer_rows (.pyStr "rows")))
        storeEmpty none hostSample = .ok (r, h2) ∧
      r.answer = pyOr (getL (some (.pyStr "")))
        (pyOr (getL (some (.pyStr "rows"))) (getL none)) ∧
      (truthy (getL (some (PyVal.pyStr ""))) = true →
        r.answer = getL (some (PyVal.pyStr ""))) ∧
      (some (PyVal.pyStr "") = some (PyVal.pyStr "") →
        r.answer = pyOr (getL (some (.pyStr "rows"))) (getL none)) :=
  C9_answer_coalescing "x" _ storeEmpty none hostSample "x" none
    { inventory := [], ledger := []
    , locals := { answer_text := some (.pyStr ""), answer_rows := some (.pyStr "rows")
                , answer_json := none }
    , out := "" }
    (by decide) (by decide)

/-- C10. After every call to execute_generated_code that reaches execution,
the host's sys.stdout is restored to its previous value, whether the plan
body completed normally or raised: the finally clause always reinstates the
saved stream. -/
theorem C10_stdout_restored (content : String) (py : String → String → Stmt)
    (store : Store) (req : Option String) (h : Host) (r : ExecResult) (h2 : Host)
    (he : execute_generated_code content py store req h = .ok (r, h2)) :
    h2.sysStdout = h.sysStdout := by
  unfold execute_generated_code at he
  rcases hx : _extract_execute_block content with e | code <;> rw [hx] at he
  · simp at he
  · rcases hr : runStmt (py code (req.getD "")) (initState store) with ⟨f, st1⟩
    simp only [hr] at he
    injection he with h'
    cases h'
    rfl

/-- C10 witness: a faulting body still leaves sys.stdout restored. -/
theorem C10_stdout_restored_w :
    ({ sysStdout := StdoutSink.hostStream } : Host).sysStdout = hostSample.sysStdout :=
  C10_stdout_restored "x" (fun _ _ => .raiseExn "boom") storeEmpty none hostSample
    { code := "x", stdout := "", error := some "boom", answer := .pyNone
    , transactions_tbl := [], inventory_tbl := [] }
    { sysStdout := StdoutSink.hostStream }
    (by decide)
